import Mathlib

/-!
# hana_exporter: request filter, credential parsing and scraper enablement

A shallow embedding of `hana_exporter.go` (package `main`).

* Go strings are Lean `String`s, Go slices are `List`s (a `nil` slice and an
  empty slice are both `[]`).
* A Go `map[K]V` is an association list with pairwise distinct keys
  (`GoMap`); reading an absent key gives the zero value.  Range loops over a
  map visit the entries in an unspecified order, so statements about such
  loops are made for every order.
* A Go `(string, error)` result is a pair `String × Option String`, the
  second component being the error message (`none` for `nil`).
-/

set_option autoImplicit false

namespace HanaExporter

/-! ## Go maps -/

/-- A Go map as an association list; the keys of a well-formed map are pairwise distinct. -/
abbrev GoMap (κ ν : Type) := List (κ × ν)

/-- The assignment `m[k] = v`: overwrite the entry of `k` when present, add it otherwise. -/
def mapSet {κ ν : Type} [DecidableEq κ] : GoMap κ ν → κ → ν → GoMap κ ν
  | [], k, v => [(k, v)]
  | (k', v') :: rest, k, v =>
    if k' = k then (k, v) :: rest else (k', v') :: mapSet rest k v

/-- The lookup `v, ok := m[k]`. -/
def mapLookup {κ ν : Type} [DecidableEq κ] : GoMap κ ν → κ → Option ν
  | [], _ => none
  | (k', v') :: rest, k => if k' = k then some v' else mapLookup rest k

/-- The read `m[k]` of a `map[K]bool`: the zero value `false` when `k` is absent. -/
def mapGetBool {κ : Type} [DecidableEq κ] (m : GoMap κ Bool) (k : κ) : Bool :=
  (mapLookup m k).getD false

/-! ## Scrapers -/

/-- Modelled from the spec: the interface `collector.Scraper` is declared in the
`collector` package, whose source is not part of the entry point.  A scraper value
is represented by what `Name()` and `Help()` return; distinct scrapers may share a
name.  Its `Scrape` operation is supplied separately where it is needed. -/
structure Scraper where
  Name : String
  Help : String
deriving DecidableEq, Repr

/-! ## `newHandler`: the per-request filter -/

/-- The loop `for _, param := range params { filters[param] = true }`. -/
def buildFilters (params : List String) : GoMap String Bool :=
  params.foldl (fun filters param => mapSet filters param true) []

/-- The loop
`for _, scraper := range scrapers { if filters[scraper.Name()] { append } }`,
starting from `filteredScrapers = nil`. -/
def filterLoop (filters : GoMap String Bool) (scrapers : List Scraper) : List Scraper :=
  scrapers.foldl
    (fun filteredScrapers scraper =>
      if mapGetBool filters scraper.Name then filteredScrapers ++ [scraper]
      else filteredScrapers)
    []

/-- The value of `filteredScrapers` when `newHandler`'s closure reaches
`collector.New`, for the enabled list `scrapers` and the request's `collect[]`
values `params`. -/
def filteredScrapers (scrapers : List Scraper) (params : List String) : List Scraper :=
  if params.length > 0 then filterLoop (buildFilters params) scrapers else scrapers

/-- The arguments of the call `collector.New(dsn, filteredScrapers)` made by the
handler.  Nothing before that call can fail: the handler has no error path there. -/
def newHandlerCollectorArgs (dsn : String) (scrapers : List Scraper) (params : List String) :
    String × List Scraper :=
  (dsn, filteredScrapers scrapers params)

/-! ## `parseHanacnf`: the connection descriptor from `hana.cnf` -/

/-- A section of a loaded ini file: key name to the text `Key(name).String()` gives. -/
abbrev IniSection := GoMap String String

/-- A loaded ini file (the `*ini.File` that `ini.LoadSources` returns): section name
to section. -/
abbrev IniFile := GoMap String IniSection

/-- The call `cfg.Section(name)`: a section that is absent reads as an empty one. -/
def iniSection (cfg : IniFile) (name : String) : IniSection :=
  (mapLookup cfg name).getD []

/-- The call `sec.Key(name).String()`: a key that is absent reads as the empty string. -/
def keyString (sec : IniSection) (name : String) : String :=
  (mapLookup sec name).getD ""

/-- The digit loop of `strconv.ParseUint(s, 10, 64)`: every character must be a decimal
digit and the accumulated value must stay below `2 ^ 64`. -/
def parseUintLoop : List Char → Nat → Option Nat
  | [], n => some n
  | c :: cs, n =>
    if c.isDigit then
      let n1 := n * 10 + (c.toNat - '0'.toNat)
      if n1 < 2 ^ 64 then parseUintLoop cs n1 else none
    else none

/-- The call `strconv.ParseUint(s, 10, 64)`: `none` stands for a syntax or range error.
The empty string is a syntax error. -/
def parseUint (s : String) : Option Nat :=
  if s = "" then none else parseUintLoop s.data 0

/-- The call `sec.Key(name).Uint()`, which is `strconv.ParseUint(k.String(), 10, 64)`
converted to `uint` (64 bits wide on the platforms the exporter is built for). -/
def keyUint (sec : IniSection) (name : String) : Option Nat :=
  parseUint (keyString sec name)

/-- The character of the decimal digit `d`. -/
def digitChar (d : Nat) : Char :=
  Char.ofNat ('0'.toNat + d)

/-- The verb `%d` applied to an unsigned integer: its decimal digits, most significant
first, without sign or padding. -/
def formatUint (n : Nat) : List Char :=
  if n < 10 then [digitChar n] else formatUint (n / 10) ++ [digitChar (n % 10)]
termination_by n
decreasing_by omega

/-- The call `fmt.Sprintf("%s:%s@%s:%d", user, password, host, port)`. -/
def sprintfDsn (user password host : String) (port : Nat) : String :=
  user ++ ":" ++ password ++ "@" ++ host ++ ":" ++ String.mk (formatUint port)

/-- The function `parseHanacnf`.  `load` is `ini.LoadSources` with the options the
function passes (what the file system holds at each path, or the load error), and
`config` is the path, which is also what `%s` prints for it. -/
def parseHanacnf (load : String → Except String IniFile) (config : String) :
    String × Option String :=
  let dsn : String := ""
  match load config with
  | .error err => (dsn, some ("failed reading ini file: " ++ err))
  | .ok cfg =>
    let user := keyString (iniSection cfg "client") "user"
    let password := keyString (iniSection cfg "client") "password"
    if user = "" ∨ password = "" then
      (dsn, some ("no user or password specified under [client] in " ++ config))
    else
      let host := keyString (iniSection cfg "client") "host"
      let port := keyUint (iniSection cfg "client") "port"
      if host = "" ∨ port = none then
        (dsn, some ("no host or port specified under [client] in " ++ config))
      else
        (sprintfDsn user password host (port.getD 0), none)

/-! ## `main`: descriptor source and enabled scrapers -/

/-- The call `os.Getenv(key)`: the empty string when the variable is unset. -/
def getenv (env : GoMap String String) (key : String) : String :=
  (mapLookup env key).getD ""

/-- Lines 156-162 of `main`: the process-wide `dsn`, or the message `log.Fatal` aborts
with. -/
def mainDsn (env : GoMap String String) (load : String → Except String IniFile)
    (configHanacnf : String) : Except String String :=
  let dsn := getenv env "DATA_SOURCE_NAME"
  if dsn.length = 0 then
    match parseHanacnf load configHanacnf with
    | (dsn, none) => .ok dsn
    | (_, some err) => .error err
  else .ok dsn

/-- A boolean flag made by `kingpin.Flag(name, help).Default(value).Bool()`. -/
structure FlagClause where
  name : String
  help : String
  defaultValue : String
deriving DecidableEq, Repr

/-- The call `strconv.ParseBool`, which kingpin applies to a default value. -/
def parseBool (s : String) : Option Bool :=
  if s = "1" ∨ s = "t" ∨ s = "T" ∨ s = "TRUE" ∨ s = "true" ∨ s = "True" then some true
  else if s = "0" ∨ s = "f" ∨ s = "F" ∨ s = "FALSE" ∨ s = "false" ∨ s = "False" then some false
  else none

/-- The value a flag's `*bool` holds after `kingpin.Parse()`: what the command line
gives for the flag's name (`overrides`), and the parsed default when it gives nothing. -/
def flagValue (overrides : String → Option Bool) (f : FlagClause) : Bool :=
  match overrides f.name with
  | some b => b
  | none => (parseBool f.defaultValue).getD false

/-- The first loop of `main` (lines 121-134), visiting the registry entries in the
order `scrapers`: the map `scraperFlags`. -/
def mainScraperFlags (scrapers : List (Scraper × Bool)) : GoMap Scraper FlagClause :=
  scrapers.foldl
    (fun scraperFlags entry =>
      let defaultOn := if entry.2 then "true" else "false"
      mapSet scraperFlags entry.1 ⟨"collect." ++ entry.1.Name, entry.1.Help, defaultOn⟩)
    []

/-- The second loop of `main` (lines 166-172), visiting the entries of `scraperFlags`
in the order `visited`: the slice `enabledScrapers`. -/
def mainEnabledScrapers (overrides : String → Option Bool)
    (visited : List (Scraper × FlagClause)) : List Scraper :=
  visited.foldl
    (fun enabledScrapers entry =>
      if flagValue overrides entry.2 then enabledScrapers ++ [entry.1] else enabledScrapers)
    []

/-! ## The collector -/

/-- Modelled from the spec: an Observation (§3), a metric sample with a name, a label
set and a numeric value.  The gauge levels `1.0` and `0.0` are the values `1` and `0`. -/
structure Observation where
  name : String
  labels : List (String × String)
  value : Int
deriving DecidableEq, Repr

/-- Modelled from the spec: a ScrapeOutcome (§3), either the observations a scraper
emitted or a failure reason. -/
inductive ScrapeOutcome where
  | success (observations : List Observation)
  | failure (reason : String)
deriving DecidableEq, Repr

/-- Modelled from the spec: whether a ScrapeOutcome (§3) is the success variant. -/
def ScrapeOutcome.succeeded : ScrapeOutcome → Bool
  | .success _ => true
  | .failure _ => false

/-- Modelled from the spec: the per-scraper "scrape success" gauge of §4.5 step 3,
labelled with the scraper's name: `1` on success, `0` on failure. -/
def scrapeSuccessGauge (scraperName : String) (ok : Bool) : Observation :=
  ⟨"scrape_success", [("collector", scraperName)], if ok then 1 else 0⟩

/-- Modelled from the spec: the per-scraper "scrape duration" gauge of §4.5 step 3. -/
def scrapeDurationGauge (scraperName : String) (elapsed : Int) : Observation :=
  ⟨"scrape_duration", [("collector", scraperName)], elapsed⟩

/-- Modelled from the spec: the aggregate gauge of §4.5 step 4: `1` iff every scraper
of the filtered set succeeded. -/
def collectionSuccessGauge (ok : Bool) : Observation :=
  ⟨"collection_success", [], if ok then 1 else 0⟩

/-- Modelled from the spec: what one scraper's task sends to the sink (§4.5 steps 1-3).
`scrape s dsn` is the outcome of `s.Scrape` against the database together with the
time the call took. -/
def collectScraper (scrape : Scraper → String → ScrapeOutcome × Int) (dsn : String)
    (s : Scraper) : List Observation :=
  match scrape s dsn with
  | (.success observations, elapsed) =>
    observations ++ [scrapeSuccessGauge s.Name true, scrapeDurationGauge s.Name elapsed]
  | (.failure _, elapsed) =>
    [scrapeSuccessGauge s.Name false, scrapeDurationGauge s.Name elapsed]

/-- Modelled from the spec: the streams of all scrapers of the filtered set (§4.5), one
after the other. -/
def collectScrapers (scrape : Scraper → String → ScrapeOutcome × Int) (dsn : String) :
    List Scraper → List Observation
  | [] => []
  | s :: rest => collectScraper scrape dsn s ++ collectScrapers scrape dsn rest

/-- Modelled from the spec: the collector `collector.New(dsn, scrapers)` of §4.5, whose
source is not part of the entry point.  This is the output of one collection when the
scrapers' tasks happen to be scheduled one after the other; since the tasks run
concurrently and feed one serialising sink, an actual output is an interleaving of the
per-scraper streams, that is, some permutation of this list. -/
def collectorCollect (scrape : Scraper → String → ScrapeOutcome × Int)
    (args : String × List Scraper) : List Observation :=
  collectScrapers scrape args.1 args.2 ++
    [collectionSuccessGauge (args.2.all (fun s => (scrape s args.1).1.succeeded))]

/-! ## Example inputs -/

/-- A `hana.cnf` with user alice, password secret, host db1 and port 30015. -/
def aliceCnf : IniFile :=
  [("client", [("user", "alice"), ("password", "secret"), ("host", "db1"), ("port", "30015")])]

/-- A `hana.cnf` whose `[client]` section has a user but neither password, host nor port. -/
def userOnlyCnf : IniFile :=
  [("client", [("user", "alice")])]

/-- A file system holding `aliceCnf` at `/etc/hana.cnf`, `userOnlyCnf` at `/etc/user.cnf`
and nothing readable elsewhere. -/
def exampleLoad (path : String) : Except String IniFile :=
  if path = "/etc/hana.cnf" then .ok aliceCnf
  else if path = "/etc/user.cnf" then .ok userOnlyCnf
  else .error ("open " ++ path ++ ": no such file or directory")

/-- The alice file again, with the port written `030015` and a further key. -/
def alicePaddedCnf : IniFile :=
  [("client", [("port", "030015"), ("host", "db1"), ("timeout", "10"), ("user", "alice"),
    ("password", "secret")])]

/-- A `hana.cnf` whose user contains a colon: user `a:b`, password `c`. -/
def colonUserCnf : IniFile :=
  [("client", [("user", "a:b"), ("password", "c"), ("host", "h"), ("port", "1")])]

/-- A `hana.cnf` whose password contains a colon: user `a`, password `b:c`. -/
def colonPasswordCnf : IniFile :=
  [("client", [("user", "a"), ("password", "b:c"), ("host", "h"), ("port", "1")])]

/-- Two scrapers and the outcome of their `Scrape` calls: `ok` succeeds with two
observations, `bad` fails. -/
def okScraper : Scraper := ⟨"ok", "succeeds"⟩

/-- The scraper that fails in the example. -/
def badScraper : Scraper := ⟨"bad", "fails"⟩

/-- The example database: `okScraper` emits two samples, every other scraper fails. -/
def exampleScrape (s : Scraper) (_dsn : String) : ScrapeOutcome × Int :=
  if s = okScraper then
    (.success [⟨"hana_up", [], 1⟩, ⟨"hana_threads", [("host", "db1")], 42⟩], 3)
  else (.failure "connection refused", 7)

/-! ### Lemmas on maps and the filter -/

theorem string_length_eq_zero (s : String) : s.length = 0 ↔ s = "" := by
  constructor
  · intro h
    have hlen : s.data.length = 0 := h
    exact String.ext (by simpa using List.length_eq_zero.mp hlen)
  · rintro rfl
    rfl

theorem mapLookup_mapSet_self {κ ν : Type} [DecidableEq κ] (m : GoMap κ ν) (k : κ) (v : ν) :
    mapLookup (mapSet m k v) k = some v := by
  induction m with
  | nil => simp [mapSet, mapLookup]
  | cons e rest ih =>
    obtain ⟨k', v'⟩ := e
    by_cases h : k' = k
    · simp [mapSet, mapLookup, h]
    · simp [mapSet, mapLookup, h, ih]

theorem mapLookup_mapSet_ne {κ ν : Type} [DecidableEq κ] (m : GoMap κ ν) (k j : κ) (v : ν)
    (hne : k ≠ j) : mapLookup (mapSet m k v) j = mapLookup m j := by
  induction m with
  | nil => simp [mapSet, mapLookup, hne]
  | cons e rest ih =>
    obtain ⟨k', v'⟩ := e
    by_cases h : k' = k
    · subst h
      simp [mapSet, mapLookup, hne]
    · by_cases hj : k' = j
      · subst hj
        simp [mapSet, mapLookup, h]
      · simp [mapSet, mapLookup, h, hj, ih]

theorem mapGetBool_foldl_set (params : List String) (m : GoMap String Bool) (k : String) :
    mapGetBool (params.foldl (fun filters param => mapSet filters param true) m) k
      = (decide (k ∈ params) || mapGetBool m k) := by
  induction params generalizing m with
  | nil => simp
  | cons p ps ih =>
    rw [List.foldl_cons, ih]
    by_cases h : p = k
    · subst h
      simp [mapGetBool, mapLookup_mapSet_self]
    · have h' : ¬ k = p := fun e => h e.symm
      simp [mapGetBool, mapLookup_mapSet_ne _ _ _ _ h, h']

theorem mapGetBool_buildFilters (params : List String) (k : String) :
    mapGetBool (buildFilters params) k = decide (k ∈ params) := by
  unfold buildFilters
  rw [mapGetBool_foldl_set]
  simp [mapGetBool, mapLookup]

theorem foldl_append_filter {α : Type} (p : α → Bool) (xs acc : List α) :
    xs.foldl (fun r x => if p x then r ++ [x] else r) acc = acc ++ xs.filter p := by
  induction xs generalizing acc with
  | nil => simp
  | cons x xs ih =>
    rw [List.foldl_cons, ih]
    by_cases h : p x <;> simp [h, List.filter_cons]

theorem filterLoop_eq_filter (filters : GoMap String Bool) (scrapers : List Scraper) :
    filterLoop filters scrapers = scrapers.filter (fun s => mapGetBool filters s.Name) := by
  unfold filterLoop
  rw [foldl_append_filter (fun s => mapGetBool filters s.Name) scrapers []]
  simp

theorem filteredScrapers_of_ne_nil (scrapers : List Scraper) (params : List String)
    (hne : params ≠ []) :
    filteredScrapers scrapers params = scrapers.filter (fun s => decide (s.Name ∈ params)) := by
  have hlen : params.length > 0 := List.length_pos.mpr hne
  unfold filteredScrapers
  rw [if_pos hlen, filterLoop_eq_filter]
  congr 1
  funext s
  exact mapGetBool_buildFilters params s.Name

/-! ## The request filter (`newHandler`) -/

/-- C1: for every enabled scraper list, a request whose `collect[]` list is empty hands
`collector.New` exactly the enabled list: same elements, same order. -/
theorem newHandler_empty_selector (dsn : String) (scrapers : List Scraper) :
    newHandlerCollectorArgs dsn scrapers [] = (dsn, scrapers) ∧
      filteredScrapers scrapers [] = scrapers := by
  constructor <;> simp [newHandlerCollectorArgs, filteredScrapers]

/-- C2: for every enabled list and every non-empty `collect[]` list, the filtered result
is the enabled list restricted to the scrapers whose `Name()` is one of the tokens: a
scraper is in it iff it is enabled and its name is a token, the order of the enabled
list is kept, the result is no longer than the enabled list, and neither repeating a
token nor adding a token that names no enabled scraper changes it (any non-empty
selector list with the same tokens among the enabled names gives the same result). -/
theorem newHandler_selector_intersection (scrapers : List Scraper) (params : List String)
    (hne : params ≠ []) :
    filteredScrapers scrapers params = scrapers.filter (fun s => decide (s.Name ∈ params)) ∧
      (∀ s, s ∈ filteredScrapers scrapers params ↔ s ∈ scrapers ∧ s.Name ∈ params) ∧
      (filteredScrapers scrapers params).Sublist scrapers ∧
      (filteredScrapers scrapers params).length ≤ scrapers.length ∧
      (∀ t, (t ∈ params ∨ ∀ s ∈ scrapers, s.Name ≠ t) →
        filteredScrapers scrapers (t :: params) = filteredScrapers scrapers params) ∧
      (∀ params', params' ≠ [] → (∀ s ∈ scrapers, s.Name ∈ params' ↔ s.Name ∈ params) →
        filteredScrapers scrapers params' = filteredScrapers scrapers params) := by
  have hgen : ∀ params', params' ≠ [] → (∀ s ∈ scrapers, s.Name ∈ params' ↔ s.Name ∈ params) →
      filteredScrapers scrapers params' = filteredScrapers scrapers params := by
    intro params' hne' hsame
    rw [filteredScrapers_of_ne_nil _ _ hne', filteredScrapers_of_ne_nil _ _ hne]
    apply List.filter_congr
    intro s hs
    simp [hsame s hs]
  have heq := filteredScrapers_of_ne_nil scrapers params hne
  refine ⟨heq, ?_, ?_, ?_, ?_, ?_⟩
  · intro s
    rw [heq]
    simp [List.mem_filter]
  · rw [heq]
    exact List.filter_sublist _
  · rw [heq]
    exact List.length_filter_le _ _
  · intro t ht
    apply hgen (t :: params) (List.cons_ne_nil _ _)
    intro s hs
    rcases ht with ht | ht
    · constructor
      · intro h
        rcases List.mem_cons.mp h with h | h
        · rw [h]; exact ht
        · exact h
      · exact fun h => List.mem_cons_of_mem _ h
    · constructor
      · intro h
        rcases List.mem_cons.mp h with h | h
        · exact absurd h (ht s hs)
        · exact h
      · exact fun h => List.mem_cons_of_mem _ h
  · exact hgen

/-- Witness for C2: enabled `[a, b, c]` and tokens `b, zz, b, a`. -/
theorem newHandler_selector_intersection_witness :
    ["b", "zz", "b", "a"] ≠ [] ∧
      filteredScrapers [⟨"a", "A"⟩, ⟨"b", "B"⟩, ⟨"c", "C"⟩] ["b", "zz", "b", "a"]
        = List.filter (fun s => decide (s.Name ∈ ["b", "zz", "b", "a"]))
            [⟨"a", "A"⟩, ⟨"b", "B"⟩, ⟨"c", "C"⟩] ∧
      filteredScrapers [⟨"a", "A"⟩, ⟨"b", "B"⟩, ⟨"c", "C"⟩] ["b", "zz", "b", "a"]
        = [⟨"a", "A"⟩, ⟨"b", "B"⟩] :=
  ⟨by decide,
    (newHandler_selector_intersection [⟨"a", "A"⟩, ⟨"b", "B"⟩, ⟨"c", "C"⟩]
      ["b", "zz", "b", "a"] (by decide)).1,
    by decide⟩

/-- C3: for every enabled list and every non-empty `collect[]` list none of whose tokens
is the `Name()` of an enabled scraper, the filtered result is the empty list, and the
handler goes on to call `collector.New` with the descriptor and zero scrapers. -/
theorem newHandler_unknown_tokens (dsn : String) (scrapers : List Scraper)
    (params : List String) (hne : params ≠ [])
    (hunknown : ∀ t ∈ params, ∀ s ∈ scrapers, s.Name ≠ t) :
    filteredScrapers scrapers params = [] ∧
      newHandlerCollectorArgs dsn scrapers params = (dsn, []) := by
  have h : filteredScrapers scrapers params = [] := by
    rw [filteredScrapers_of_ne_nil _ _ hne, List.filter_eq_nil_iff]
    intro s hs
    simp only [decide_eq_true_eq]
    exact fun hmem => hunknown s.Name hmem s hs rfl
  exact ⟨h, by simp [newHandlerCollectorArgs, h]⟩

/-- Witness for C3: enabled `[a, b]` and the unknown tokens `x, y`. -/
theorem newHandler_unknown_tokens_witness :
    ["x", "y"] ≠ [] ∧
      filteredScrapers [⟨"a", "A"⟩, ⟨"b", "B"⟩] ["x", "y"] = [] ∧
      newHandlerCollectorArgs "u:p@h:1" [⟨"a", "A"⟩, ⟨"b", "B"⟩] ["x", "y"]
        = ("u:p@h:1", []) :=
  ⟨by decide,
    newHandler_unknown_tokens "u:p@h:1" [⟨"a", "A"⟩, ⟨"b", "B"⟩] ["x", "y"] (by decide)
      (by decide)⟩

/-! ## Credential parsing (`parseHanacnf`) -/

/-- C4: when the loaded `[client]` section has a non-empty user, password and host and a
port that parses as an unsigned integer, `parseHanacnf` returns no error and the
descriptor `user:password@host:decimal(port)`; for alice, secret, db1 and 30015 this is
`alice:secret@db1:30015`; and any other load that gives the same four fields gives the
same result. -/
theorem parseHanacnf_success (load : String → Except String IniFile) (config : String)
    (cfg : IniFile) (user password host : String) (port : Nat)
    (hload : load config = .ok cfg)
    (huser : keyString (iniSection cfg "client") "user" = user)
    (hpassword : keyString (iniSection cfg "client") "password" = password)
    (hhost : keyString (iniSection cfg "client") "host" = host)
    (hport : keyUint (iniSection cfg "client") "port" = some port)
    (hu : user ≠ "") (hp : password ≠ "") (hh : host ≠ "") :
    parseHanacnf load config
        = (user ++ ":" ++ password ++ "@" ++ host ++ ":" ++ String.mk (formatUint port), none) ∧
      (user = "alice" → password = "secret" → host = "db1" → port = 30015 →
        parseHanacnf load config = ("alice:secret@db1:30015", none)) ∧
      (∀ (load' : String → Except String IniFile) (config' : String) (cfg' : IniFile),
        load' config' = .ok cfg' →
        keyString (iniSection cfg' "client") "user" = user →
        keyString (iniSection cfg' "client") "password" = password →
        keyString (iniSection cfg' "client") "host" = host →
        keyUint (iniSection cfg' "client") "port" = some port →
        parseHanacnf load' config' = parseHanacnf load config) := by
  have key : ∀ (load' : String → Except String IniFile) (config' : String) (cfg' : IniFile),
      load' config' = .ok cfg' →
      keyString (iniSection cfg' "client") "user" = user →
      keyString (iniSection cfg' "client") "password" = password →
      keyString (iniSection cfg' "client") "host" = host →
      keyUint (iniSection cfg' "client") "port" = some port →
      parseHanacnf load' config' = (sprintfDsn user password host port, none) := by
    intro load' config' cfg' h0 h1 h2 h3 h4
    simp [parseHanacnf, h0, h1, h2, h3, h4, hu, hp, hh]
  have hmain := key load config cfg hload huser hpassword hhost hport
  refine ⟨hmain, ?_, ?_⟩
  · intro e1 e2 e3 e4
    rw [hmain, e1, e2, e3, e4]
    simp [sprintfDsn, formatUint, digitChar]
  · intro load' config' cfg' h0 h1 h2 h3 h4
    rw [hmain, key load' config' cfg' h0 h1 h2 h3 h4]

/-- Witness for C4: the file with alice, secret, db1 and 30015. -/
theorem parseHanacnf_success_witness :
    parseHanacnf exampleLoad "/etc/hana.cnf" = ("alice:secret@db1:30015", none) :=
  (parseHanacnf_success exampleLoad "/etc/hana.cnf" aliceCnf "alice" "secret" "db1" 30015
    rfl (by decide) (by decide) (by decide) (by decide) (by decide) (by decide)
    (by decide)).2.1 rfl rfl rfl rfl

/-- C5: when the source loads and the `[client]` user is empty, or the password is empty,
or the host is empty, or the port is absent or does not parse as an unsigned number,
`parseHanacnf` returns an error together with the empty descriptor; and whatever the
input, an error never comes with a non-empty descriptor. -/
theorem parseHanacnf_failure (load : String → Except String IniFile) (config : String)
    (cfg : IniFile) (hload : load config = .ok cfg)
    (hbad : keyString (iniSection cfg "client") "user" = "" ∨
      keyString (iniSection cfg "client") "password" = "" ∨
      keyString (iniSection cfg "client") "host" = "" ∨
      mapLookup (iniSection cfg "client") "port" = none ∨
      parseUint (keyString (iniSection cfg "client") "port") = none) :
    (∃ err, parseHanacnf load config = ("", some err)) ∧
      (∀ (load' : String → Except String IniFile) (config' : String),
        (parseHanacnf load' config').2 ≠ none → (parseHanacnf load' config').1 = "") := by
  constructor
  · have hport : mapLookup (iniSection cfg "client") "port" = none →
        keyUint (iniSection cfg "client") "port" = none := by
      intro h
      simp [keyUint, keyString, h, parseUint]
    simp only [parseHanacnf, hload]
    split_ifs with h1 h2
    · exact ⟨_, rfl⟩
    · exact ⟨_, rfl⟩
    · exfalso
      rcases hbad with h | h | h | h | h
      · exact h1 (Or.inl h)
      · exact h1 (Or.inr h)
      · exact h2 (Or.inl h)
      · exact h2 (Or.inr (hport h))
      · exact h2 (Or.inr h)
  · intro load' config'
    simp only [parseHanacnf]
    split
    · intro _; rfl
    · split_ifs
      · intro _; rfl
      · intro _; rfl
      · intro h; exact absurd rfl h

/-- Witness for C5: a `[client]` section with a user only. -/
theorem parseHanacnf_failure_witness :
    ∃ err, parseHanacnf exampleLoad "/etc/user.cnf" = ("", some err) :=
  (parseHanacnf_failure exampleLoad "/etc/user.cnf" userOnlyCnf rfl
    (Or.inr (Or.inl (by decide)))).1

/-- C6: when the loaded `[client]` section has no password, or an empty one, then whatever
the user, host and port are, `parseHanacnf` fails with the user/password diagnostic
`no user or password specified under [client] in <config>` and the empty descriptor,
and never with the host/port diagnostic. -/
theorem parseHanacnf_missing_password (load : String → Except String IniFile)
    (config : String) (cfg : IniFile) (hload : load config = .ok cfg)
    (hpw : mapLookup (iniSection cfg "client") "password" = none ∨
      mapLookup (iniSection cfg "client") "password" = some "") :
    parseHanacnf load config
        = ("", some ("no user or password specified under [client] in " ++ config)) ∧
      (parseHanacnf load config).2
        ≠ some ("no host or port specified under [client] in " ++ config) := by
  have hempty : keyString (iniSection cfg "client") "password" = "" := by
    rcases hpw with h | h <;> simp [keyString, h]
  have hres : parseHanacnf load config
      = ("", some ("no user or password specified under [client] in " ++ config)) := by
    simp [parseHanacnf, hload, hempty]
  refine ⟨hres, ?_⟩
  rw [hres]
  intro h
  have hdata := congrArg String.data (Option.some.inj h)
  simp [String.data_append] at hdata

/-- Witness for C6: a `[client]` section with a user only, so host and port are missing
as well. -/
theorem parseHanacnf_missing_password_witness :
    parseHanacnf exampleLoad "/etc/user.cnf"
      = ("", some "no user or password specified under [client] in /etc/user.cnf") :=
  (parseHanacnf_missing_password exampleLoad "/etc/user.cnf" userOnlyCnf rfl
    (Or.inl (by decide))).1

/-! ## Descriptor source selection (`main`) -/

/-- C10: if `DATA_SOURCE_NAME` is non-empty, the descriptor is that value verbatim
whatever the configuration file holds or fails with (it is not consulted); if it is
empty or unset, the descriptor is what `parseHanacnf` returns for the configured path,
and startup aborts, with `parseHanacnf`'s error, exactly when `parseHanacnf` returns an
error. -/
theorem mainDsn_source_selection (env : GoMap String String)
    (load : String → Except String IniFile) (configHanacnf : String) :
    (getenv env "DATA_SOURCE_NAME" ≠ "" →
      ∀ load' : String → Except String IniFile,
        mainDsn env load' configHanacnf = .ok (getenv env "DATA_SOURCE_NAME")) ∧
    ((mapLookup env "DATA_SOURCE_NAME" = none ∨ mapLookup env "DATA_SOURCE_NAME" = some "") →
      (∀ dsn, parseHanacnf load configHanacnf = (dsn, none) →
        mainDsn env load configHanacnf = .ok dsn) ∧
      (∀ dsn err, parseHanacnf load configHanacnf = (dsn, some err) →
        mainDsn env load configHanacnf = .error err) ∧
      ((∃ err, mainDsn env load configHanacnf = .error err) ↔
        (parseHanacnf load configHanacnf).2 ≠ none)) := by
  constructor
  · intro hne load'
    have hlen : (getenv env "DATA_SOURCE_NAME").length ≠ 0 := by
      intro h
      exact hne ((string_length_eq_zero _).mp h)
    simp [mainDsn, hlen]
  · intro hunset
    have hempty : getenv env "DATA_SOURCE_NAME" = "" := by
      rcases hunset with h | h <;> simp [getenv, h]
    have hok : ∀ dsn, parseHanacnf load configHanacnf = (dsn, none) →
        mainDsn env load configHanacnf = .ok dsn := by
      intro dsn h
      simp [mainDsn, hempty, h]
    have herr : ∀ dsn err, parseHanacnf load configHanacnf = (dsn, some err) →
        mainDsn env load configHanacnf = .error err := by
      intro dsn err h
      simp [mainDsn, hempty, h]
    refine ⟨hok, herr, ?_⟩
    rcases hres : parseHanacnf load configHanacnf with ⟨dsn, _ | err⟩
    · rw [hok dsn hres]
      simp
    · rw [herr dsn err hres]
      simp

/-- Witness for C10: with `DATA_SOURCE_NAME` set the unreadable path is never an
obstacle; with it unset the descriptor comes from the file. -/
theorem mainDsn_source_selection_witness :
    mainDsn [("DATA_SOURCE_NAME", "sys:pw@h:1")] exampleLoad "/missing" = .ok "sys:pw@h:1" ∧
      mainDsn [] exampleLoad "/etc/hana.cnf" = .ok "alice:secret@db1:30015" ∧
      mainDsn [] exampleLoad "/etc/user.cnf"
        = .error "no user or password specified under [client] in /etc/user.cnf" :=
  ⟨(mainDsn_source_selection [("DATA_SOURCE_NAME", "sys:pw@h:1")] exampleLoad "/missing").1
      (by decide) exampleLoad,
    ((mainDsn_source_selection [] exampleLoad "/etc/hana.cnf").2 (Or.inl (by decide))).1
      "alice:secret@db1:30015"
      (by simp [parseHanacnf, exampleLoad, aliceCnf, keyString, iniSection, mapLookup, keyUint,
        parseUint, parseUintLoop, sprintfDsn, formatUint, digitChar]),
    ((mainDsn_source_selection [] exampleLoad "/etc/user.cnf").2 (Or.inl (by decide))).2.1
      "" "no user or password specified under [client] in /etc/user.cnf" (by decide)⟩

/-! ## Enablement (`main`) -/

theorem mapSet_of_not_mem {κ ν : Type} [DecidableEq κ] (m : GoMap κ ν) (k : κ) (v : ν)
    (hk : k ∉ m.map Prod.fst) : mapSet m k v = m ++ [(k, v)] := by
  induction m with
  | nil => rfl
  | cons e rest ih =>
    obtain ⟨k', v'⟩ := e
    simp only [List.map_cons, List.mem_cons, not_or] at hk
    have hne : ¬ k' = k := fun h => hk.1 h.symm
    simp [mapSet, hne, ih hk.2]

theorem foldl_mapSet_of_nodup {α κ ν : Type} [DecidableEq κ] (key : α → κ) (val : α → ν)
    (xs : List α) (acc : GoMap κ ν)
    (hnd : (acc.map Prod.fst ++ xs.map key).Nodup) :
    xs.foldl (fun m x => mapSet m (key x) (val x)) acc
      = acc ++ xs.map (fun x => (key x, val x)) := by
  induction xs generalizing acc with
  | nil => simp
  | cons x xs ih =>
    have hx : key x ∉ acc.map Prod.fst := by
      intro hmem
      have := List.nodup_append.mp hnd
      exact this.2.2 hmem (by simp)
    rw [List.foldl_cons, mapSet_of_not_mem _ _ _ hx, ih]
    · simp
    · simpa [List.map_append, List.append_assoc] using hnd

/-- The flag registered for a registry entry. -/
theorem mainScraperFlags_eq (registry : List (Scraper × Bool))
    (hmap : (registry.map Prod.fst).Nodup) :
    mainScraperFlags registry
      = registry.map (fun e =>
          (e.1, (⟨"collect." ++ e.1.Name, e.1.Help, if e.2 then "true" else "false"⟩ :
            FlagClause))) := by
  unfold mainScraperFlags
  have h := foldl_mapSet_of_nodup (fun e : Scraper × Bool => e.1)
    (fun e : Scraper × Bool =>
      (⟨"collect." ++ e.1.Name, e.1.Help, if e.2 then "true" else "false"⟩ : FlagClause))
    registry [] (by simpa using hmap)
  simpa using h

theorem foldl_append_filterMap {α β : Type} (p : α → Bool) (g : α → β) (xs : List α)
    (acc : List β) :
    xs.foldl (fun r x => if p x then r ++ [g x] else r) acc
      = acc ++ (xs.filter p).map g := by
  induction xs generalizing acc with
  | nil => simp
  | cons x xs ih =>
    rw [List.foldl_cons, ih]
    by_cases h : p x <;> simp [h, List.filter_cons]

theorem mainEnabledScrapers_eq (overrides : String → Option Bool)
    (visited : List (Scraper × FlagClause)) :
    mainEnabledScrapers overrides visited
      = (visited.filter (fun e => flagValue overrides e.2)).map Prod.fst := by
  unfold mainEnabledScrapers
  rw [foldl_append_filterMap (fun e : Scraper × FlagClause => flagValue overrides e.2)
    Prod.fst visited []]
  simp

theorem flagValue_registered (overrides : String → Option Bool) (s : Scraper) (d : Bool) :
    flagValue overrides ⟨"collect." ++ s.Name, s.Help, if d then "true" else "false"⟩
      = (overrides ("collect." ++ s.Name)).getD d := by
  unfold flagValue
  cases h : overrides ("collect." ++ s.Name) with
  | some b => simp
  | none => cases d <;> simp [parseBool]

/-- C7: for every registry (a map from scraper to its default) and every assignment of
overrides to the toggles `collect.<name>`, whatever order the two range loops visit the
maps in, a scraper is in `enabledScrapers` iff it is a registry entry whose resolved
toggle is true, the resolved toggle being the override when one is given and the
registry default otherwise; no scraper appears twice; and with no overrides the enabled
scrapers are exactly the registry entries whose default is true. -/
theorem mainEnabledScrapers_spec (registry : List (Scraper × Bool))
    (overrides : String → Option Bool) (visited : List (Scraper × FlagClause))
    (hmap : (registry.map Prod.fst).Nodup)
    (hvisit : visited.Perm (mainScraperFlags registry)) :
    (∀ s, s ∈ mainEnabledScrapers overrides visited ↔
      ∃ d, (s, d) ∈ registry ∧ (overrides ("collect." ++ s.Name)).getD d = true) ∧
    (mainEnabledScrapers overrides visited).Nodup ∧
    ((∀ name, overrides name = none) →
      ∀ s, s ∈ mainEnabledScrapers overrides visited ↔ (s, true) ∈ registry) := by
  have hflags := mainScraperFlags_eq registry hmap
  have hmem : ∀ s, s ∈ mainEnabledScrapers overrides visited ↔
      ∃ d, (s, d) ∈ registry ∧ (overrides ("collect." ++ s.Name)).getD d = true := by
    intro s
    rw [mainEnabledScrapers_eq]
    simp only [List.mem_map, List.mem_filter]
    constructor
    · rintro ⟨e, ⟨he, hval⟩, rfl⟩
      have he' := hvisit.mem_iff.mp he
      rw [hflags, List.mem_map] at he'
      obtain ⟨⟨s', d⟩, hreg, rfl⟩ := he'
      refine ⟨d, hreg, ?_⟩
      rw [← flagValue_registered]
      exact hval
    · rintro ⟨d, hreg, hval⟩
      refine ⟨(s, ⟨"collect." ++ s.Name, s.Help, if d then "true" else "false"⟩), ⟨?_, ?_⟩, rfl⟩
      · apply hvisit.mem_iff.mpr
        rw [hflags, List.mem_map]
        exact ⟨(s, d), hreg, rfl⟩
      · rw [flagValue_registered]
        exact hval
  refine ⟨hmem, ?_, ?_⟩
  · rw [mainEnabledScrapers_eq]
    have hkeys : (visited.map Prod.fst).Nodup := by
      have hp : (visited.map Prod.fst).Perm ((mainScraperFlags registry).map Prod.fst) :=
        hvisit.map _
      rw [hp.nodup_iff, hflags]
      simpa [List.map_map, Function.comp] using hmap
    exact List.Nodup.sublist ((List.filter_sublist _).map _) hkeys
  · intro hnone s
    rw [hmem s]
    constructor
    · rintro ⟨d, hreg, hval⟩
      rw [hnone] at hval
      simp only [Option.getD_none] at hval
      rw [← hval]
      exact hreg
    · intro hreg
      exact ⟨true, hreg, by simp [hnone]⟩

/-- Witness for C7: a registry of three scrapers, two on by default, with `b` turned off
and `c` turned on by the operator, and the flags visited in reverse order. -/
theorem mainEnabledScrapers_spec_witness :
    mainEnabledScrapers
      (fun name => if name = "collect.b" then some false
        else if name = "collect.c" then some true else none)
      (mainScraperFlags [(⟨"a", "A"⟩, true), (⟨"b", "B"⟩, true), (⟨"c", "C"⟩, false)]).reverse
        = [⟨"c", "C"⟩, ⟨"a", "A"⟩] ∧
      (mainEnabledScrapers
        (fun name => if name = "collect.b" then some false
          else if name = "collect.c" then some true else none)
        (mainScraperFlags
          [(⟨"a", "A"⟩, true), (⟨"b", "B"⟩, true), (⟨"c", "C"⟩, false)]).reverse).Nodup :=
  ⟨by decide,
    (mainEnabledScrapers_spec [(⟨"a", "A"⟩, true), (⟨"b", "B"⟩, true), (⟨"c", "C"⟩, false)]
      (fun name => if name = "collect.b" then some false
        else if name = "collect.c" then some true else none)
      (mainScraperFlags [(⟨"a", "A"⟩, true), (⟨"b", "B"⟩, true), (⟨"c", "C"⟩, false)]).reverse
      (by decide) (List.reverse_perm _)).2.1⟩

/-! ## The decimal rendering of the port -/

theorem digitChar_toNat (d : Nat) (hd : d < 10) : (digitChar d).toNat = 48 + d := by
  interval_cases d <;> rfl

theorem digitChar_isDigit (d : Nat) (hd : d < 10) : (digitChar d).isDigit = true := by
  interval_cases d <;> rfl

theorem digitChar_injective (a b : Nat) (ha : a < 10) (hb : b < 10)
    (h : digitChar a = digitChar b) : a = b := by
  have h' := congrArg Char.toNat h
  rw [digitChar_toNat a ha, digitChar_toNat b hb] at h'
  omega

theorem formatUint_lt (n : Nat) (h : n < 10) : formatUint n = [digitChar n] := by
  rw [formatUint, if_pos h]

theorem formatUint_ge (n : Nat) (h : ¬ n < 10) :
    formatUint n = formatUint (n / 10) ++ [digitChar (n % 10)] := by
  rw [formatUint, if_neg h]

theorem formatUint_length_pos (n : Nat) : 0 < (formatUint n).length := by
  by_cases h : n < 10
  · simp [formatUint_lt n h]
  · simp [formatUint_ge n h]

theorem formatUint_isDigit (n : Nat) : ∀ c ∈ formatUint n, c.isDigit = true := by
  induction n using Nat.strong_induction_on with
  | _ n ih =>
    intro c hc
    by_cases h : n < 10
    · rw [formatUint_lt n h] at hc
      rw [List.mem_singleton.mp hc]
      exact digitChar_isDigit n h
    · rw [formatUint_ge n h, List.mem_append] at hc
      rcases hc with hc | hc
      · exact ih (n / 10) (by omega) c hc
      · rw [List.mem_singleton.mp hc]
        exact digitChar_isDigit _ (Nat.mod_lt _ (by decide))

theorem formatUint_injective (a b : Nat) (h : formatUint a = formatUint b) : a = b := by
  induction a using Nat.strong_induction_on generalizing b with
  | _ a ih =>
    by_cases ha : a < 10
    · by_cases hb : b < 10
      · rw [formatUint_lt a ha, formatUint_lt b hb] at h
        exact digitChar_injective a b ha hb (List.singleton_inj.mp h)
      · have hlen := congrArg List.length h
        rw [formatUint_lt a ha, formatUint_ge b hb] at hlen
        have := formatUint_length_pos (b / 10)
        simp only [List.length_append, List.length_singleton] at hlen
        omega
    · by_cases hb : b < 10
      · have hlen := congrArg List.length h
        rw [formatUint_ge a ha, formatUint_lt b hb] at hlen
        have := formatUint_length_pos (a / 10)
        simp only [List.length_append, List.length_singleton] at hlen
        omega
      · rw [formatUint_ge a ha, formatUint_ge b hb] at h
        have hsplit := List.append_inj' h rfl
        have hq : a / 10 = b / 10 := ih (a / 10) (by omega) (b / 10) hsplit.1
        have hr : a % 10 = b % 10 :=
          digitChar_injective _ _ (Nat.mod_lt _ (by decide)) (Nat.mod_lt _ (by decide))
            (List.singleton_inj.mp hsplit.2)
        omega

theorem parseUintLoop_append_singleton (xs : List Char) (c : Char) (n : Nat) :
    parseUintLoop (xs ++ [c]) n
      = (parseUintLoop xs n).bind (fun m =>
          if c.isDigit then
            (if m * 10 + (c.toNat - '0'.toNat) < 2 ^ 64 then
              some (m * 10 + (c.toNat - '0'.toNat)) else none)
          else none) := by
  induction xs generalizing n with
  | nil => simp [parseUintLoop]
  | cons x xs ih =>
    by_cases hx : x.isDigit = true
    · by_cases hb : n * 10 + (x.toNat - '0'.toNat) < 2 ^ 64
      · simp only [List.cons_append, parseUintLoop, hx, hb, if_true]
        exact ih _
      · simp only [List.cons_append, parseUintLoop, hx, hb, if_true, if_false]
        rfl
    · simp [parseUintLoop, hx]

/-- Reading back what `%d` prints gives the number: the rendering is the decimal one. -/
theorem parseUintLoop_formatUint (n : Nat) (hn : n < 2 ^ 64) :
    parseUintLoop (formatUint n) 0 = some n := by
  induction n using Nat.strong_induction_on with
  | _ n ih =>
    have hn' : n < 18446744073709551616 := by simpa using hn
    by_cases h : n < 10
    · rw [formatUint_lt n h]
      have h1 := digitChar_isDigit n h
      have h2 := digitChar_toNat n h
      have h3 : 48 + n - 48 = n := by omega
      simp [parseUintLoop, h1, h2, h3, hn']
    · rw [formatUint_ge n h, parseUintLoop_append_singleton, ih (n / 10) (by omega) (by omega)]
      have hm : n % 10 < 10 := Nat.mod_lt _ (by decide)
      have h1 := digitChar_isDigit (n % 10) hm
      have h2 := digitChar_toNat (n % 10) hm
      have h3 : n / 10 * 10 + (48 + n % 10 - 48) = n := by omega
      have h4 : n / 10 * 10 + n % 10 = n := by omega
      simp [h1, h2, h3, h4, hn']

/-! ## Splitting a descriptor at its separators -/

theorem append_cons_inj_of_not_mem_left {α : Type} (c : α) (xs xs' ys ys' : List α)
    (h : xs ++ c :: ys = xs' ++ c :: ys') (hx : c ∉ xs) (hx' : c ∉ xs') :
    xs = xs' ∧ ys = ys' := by
  induction xs generalizing xs' with
  | nil =>
    cases xs' with
    | nil => exact ⟨rfl, by simpa using h⟩
    | cons b t' =>
      exfalso
      simp only [List.nil_append, List.cons_append, List.cons.injEq] at h
      exact hx' (by simp [h.1])
  | cons a t ih =>
    cases xs' with
    | nil =>
      exfalso
      simp only [List.nil_append, List.cons_append, List.cons.injEq] at h
      exact hx (by simp [h.1])
    | cons b t' =>
      simp only [List.cons_append, List.cons.injEq] at h
      have hrec := ih t' h.2 (fun hm => hx (List.mem_cons_of_mem _ hm))
        (fun hm => hx' (List.mem_cons_of_mem _ hm))
      exact ⟨by rw [h.1, hrec.1], hrec.2⟩

theorem append_cons_inj_of_not_mem_right {α : Type} (c : α) (xs xs' ys ys' : List α)
    (h : xs ++ c :: ys = xs' ++ c :: ys') (hy : c ∉ ys) (hy' : c ∉ ys') :
    xs = xs' ∧ ys = ys' := by
  have hrev := congrArg List.reverse h
  simp only [List.reverse_append, List.reverse_cons, List.append_assoc,
    List.singleton_append] at hrev
  have hsplit := append_cons_inj_of_not_mem_left c ys.reverse ys'.reverse xs.reverse
    xs'.reverse hrev (by simpa using hy) (by simpa using hy')
  exact ⟨List.reverse_injective hsplit.2, List.reverse_injective hsplit.1⟩

theorem sprintfDsn_data (user password host : String) (port : Nat) :
    (sprintfDsn user password host port).data
      = (user.data ++ ':' :: (password.data ++ '@' :: host.data)) ++ ':' :: formatUint port := by
  simp [sprintfDsn, String.data_append]

theorem colon_not_mem_formatUint (n : Nat) : ':' ∉ formatUint n := by
  intro h
  have := formatUint_isDigit n ':' h
  revert this
  decide

/-- What a successful `parseHanacnf` has read. -/
theorem parseHanacnf_ok_inv (load : String → Except String IniFile) (config : String)
    (cfg : IniFile) (dsn : String) (hload : load config = .ok cfg)
    (hres : parseHanacnf load config = (dsn, none)) :
    ∃ port, keyUint (iniSection cfg "client") "port" = some port ∧
      dsn = sprintfDsn (keyString (iniSection cfg "client") "user")
        (keyString (iniSection cfg "client") "password")
        (keyString (iniSection cfg "client") "host") port := by
  simp only [parseHanacnf, hload] at hres
  split_ifs at hres with h1 h2
  · simp at hres
  · simp at hres
  · cases hport : keyUint (iniSection cfg "client") "port" with
    | none => exact absurd (Or.inr hport) h2
    | some port =>
      refine ⟨port, rfl, ?_⟩
      rw [hport] at hres
      simpa using (congrArg Prod.fst hres).symm

/-! ## Faithfulness of the descriptor -/

/-- C9, as stated, fails: the file with user `a:b` and password `c` and the file with
user `a` and password `b:c` both parse, to the same descriptor `a:b:c@h:1`, although
their users and their passwords differ. -/
theorem descriptor_not_faithful :
    parseHanacnf (fun _ => .ok colonUserCnf) "hana.cnf" = ("a:b:c@h:1", none) ∧
      parseHanacnf (fun _ => .ok colonPasswordCnf) "hana.cnf" = ("a:b:c@h:1", none) ∧
      keyString (iniSection colonUserCnf "client") "user"
        ≠ keyString (iniSection colonPasswordCnf "client") "user" ∧
      keyString (iniSection colonUserCnf "client") "password"
        ≠ keyString (iniSection colonPasswordCnf "client") "password" := by
  refine ⟨?_, ?_, by decide, by decide⟩
  · simp [parseHanacnf, colonUserCnf, keyString, iniSection, mapLookup, keyUint, parseUint,
      parseUintLoop, sprintfDsn, formatUint, digitChar]
  · simp [parseHanacnf, colonPasswordCnf, keyString, iniSection, mapLookup, keyUint, parseUint,
      parseUintLoop, sprintfDsn, formatUint, digitChar]

/-- C9, amended: for every two configurations on which `parseHanacnf` succeeds with the
same descriptor, the two ports (as parsed numbers) are the same; and if neither user
contains a colon and neither host contains an at sign, the two users, the two passwords
and the two hosts are the same as well. -/
theorem descriptor_faithful (load₁ load₂ : String → Except String IniFile)
    (config₁ config₂ : String) (cfg₁ cfg₂ : IniFile) (dsn : String)
    (hload₁ : load₁ config₁ = .ok cfg₁) (hload₂ : load₂ config₂ = .ok cfg₂)
    (hres₁ : parseHanacnf load₁ config₁ = (dsn, none))
    (hres₂ : parseHanacnf load₂ config₂ = (dsn, none)) :
    keyUint (iniSection cfg₁ "client") "port" = keyUint (iniSection cfg₂ "client") "port" ∧
      (':' ∉ (keyString (iniSection cfg₁ "client") "user").data →
        ':' ∉ (keyString (iniSection cfg₂ "client") "user").data →
        '@' ∉ (keyString (iniSection cfg₁ "client") "host").data →
        '@' ∉ (keyString (iniSection cfg₂ "client") "host").data →
        keyString (iniSection cfg₁ "client") "user"
            = keyString (iniSection cfg₂ "client") "user" ∧
          keyString (iniSection cfg₁ "client") "password"
            = keyString (iniSection cfg₂ "client") "password" ∧
          keyString (iniSection cfg₁ "client") "host"
            = keyString (iniSection cfg₂ "client") "host") := by
  obtain ⟨port₁, hport₁, hdsn₁⟩ := parseHanacnf_ok_inv load₁ config₁ cfg₁ dsn hload₁ hres₁
  obtain ⟨port₂, hport₂, hdsn₂⟩ := parseHanacnf_ok_inv load₂ config₂ cfg₂ dsn hload₂ hres₂
  have hdata := congrArg String.data (hdsn₁.symm.trans hdsn₂)
  rw [sprintfDsn_data, sprintfDsn_data] at hdata
  have hsplit := append_cons_inj_of_not_mem_right ':' _ _ _ _ hdata
    (colon_not_mem_formatUint port₁) (colon_not_mem_formatUint port₂)
  constructor
  · rw [hport₁, hport₂, formatUint_injective port₁ port₂ hsplit.2]
  · intro hu₁ hu₂ hh₁ hh₂
    have huser := append_cons_inj_of_not_mem_left ':' _ _ _ _ hsplit.1 hu₁ hu₂
    have hrest := append_cons_inj_of_not_mem_right '@' _ _ _ _ huser.2 hh₁ hh₂
    exact ⟨String.ext huser.1, String.ext hrest.1, String.ext hrest.2⟩

/-- Witness for the amended C9: the alice file and the same credentials written in another
order with the port padded to `030015`. -/
theorem descriptor_faithful_witness :
    keyUint (iniSection aliceCnf "client") "port"
        = keyUint (iniSection alicePaddedCnf "client") "port" ∧
      keyString (iniSection aliceCnf "client") "user"
        = keyString (iniSection alicePaddedCnf "client") "user" ∧
      keyString (iniSection aliceCnf "client") "password"
        = keyString (iniSection alicePaddedCnf "client") "password" ∧
      keyString (iniSection aliceCnf "client") "host"
        = keyString (iniSection alicePaddedCnf "client") "host" :=
  have h := descriptor_faithful (fun _ => .ok aliceCnf) (fun _ => .ok alicePaddedCnf)
    "a.cnf" "b.cnf" aliceCnf alicePaddedCnf "alice:secret@db1:30015" rfl rfl
    (by simp [parseHanacnf, aliceCnf, keyString, iniSection, mapLookup, keyUint, parseUint,
      parseUintLoop, sprintfDsn, formatUint, digitChar])
    (by simp [parseHanacnf, alicePaddedCnf, keyString, iniSection, mapLookup, keyUint,
      parseUint, parseUintLoop, sprintfDsn, formatUint, digitChar])
  ⟨h.1, h.2 (by decide) (by decide) (by decide) (by decide)⟩

/-! ## The collector -/

theorem collectScraper_sublist_collectScrapers
    (scrape : Scraper → String → ScrapeOutcome × Int) (dsn : String) (s : Scraper)
    (scrapers : List Scraper) (hs : s ∈ scrapers) :
    (collectScraper scrape dsn s).Sublist (collectScrapers scrape dsn scrapers) := by
  induction scrapers with
  | nil => exact absurd hs (List.not_mem_nil _)
  | cons x rest ih =>
    rcases List.mem_cons.mp hs with h | h
    · subst h
      exact List.sublist_append_left _ _
    · exact (ih h).trans (List.sublist_append_right _ _)

theorem collectScraper_sublist_collect
    (scrape : Scraper → String → ScrapeOutcome × Int) (args : String × List Scraper)
    (s : Scraper) (hs : s ∈ args.2) :
    (collectScraper scrape args.1 s).Sublist (collectorCollect scrape args) :=
  (collectScraper_sublist_collectScrapers scrape args.1 s args.2 hs).trans
    (List.sublist_append_left _ _)

theorem collectScraper_success (scrape : Scraper → String → ScrapeOutcome × Int)
    (dsn : String) (s : Scraper) (obs : List Observation) (elapsed : Int)
    (h : scrape s dsn = (.success obs, elapsed)) :
    collectScraper scrape dsn s
      = obs ++ [scrapeSuccessGauge s.Name true, scrapeDurationGauge s.Name elapsed] := by
  simp [collectScraper, h]

theorem collectScraper_failure (scrape : Scraper → String → ScrapeOutcome × Int)
    (dsn : String) (s : Scraper) (reason : String) (elapsed : Int)
    (h : scrape s dsn = (.failure reason, elapsed)) :
    collectScraper scrape dsn s
      = [scrapeSuccessGauge s.Name false, scrapeDurationGauge s.Name elapsed] := by
  simp [collectScraper, h]

/-- What a succeeding scraper contributes is part of every output, whatever the other
scrapers of the set do. -/
theorem collect_reports_success (scrape : Scraper → String → ScrapeOutcome × Int)
    (args : String × List Scraper) (s : Scraper) (obs : List Observation) (elapsed : Int)
    (hs : s ∈ args.2) (h : scrape s args.1 = (.success obs, elapsed))
    (out : List Observation) (hout : out.Perm (collectorCollect scrape args)) :
    obs.Subperm out ∧ scrapeSuccessGauge s.Name true ∈ out := by
  have hsub := collectScraper_sublist_collect scrape args s hs
  rw [collectScraper_success scrape args.1 s obs elapsed h] at hsub
  constructor
  · exact ((List.sublist_append_left _ _).trans hsub).subperm.trans hout.symm.subperm
  · exact hout.mem_iff.mpr (hsub.subset (by simp))

/-- C8: in the collector of §4.5, built over the handler's filtered set, if scraper A of
the set succeeds and scraper B of the set fails, then every output the concurrent
scraper tasks can produce (every interleaving of their streams, hence every permutation
of the sequential output) contains all of A's observations, the success gauge `1`
labelled A, the success gauge `0` labelled B and the aggregate success gauge `0`; and
A's observations and success gauge are reported in the same way whatever the other
scrapers, B included, do. -/
theorem collector_isolation (scrape : Scraper → String → ScrapeOutcome × Int)
    (dsn : String) (enabled : List Scraper) (params : List String) (A B : Scraper)
    (obsA : List Observation) (elapsedA elapsedB : Int) (reason : String)
    (hA : A ∈ filteredScrapers enabled params) (hB : B ∈ filteredScrapers enabled params)
    (hsA : scrape A dsn = (.success obsA, elapsedA))
    (hsB : scrape B dsn = (.failure reason, elapsedB))
    (out : List Observation)
    (hout : out.Perm (collectorCollect scrape (newHandlerCollectorArgs dsn enabled params))) :
    obsA.Subperm out ∧
      scrapeSuccessGauge A.Name true ∈ out ∧
      scrapeSuccessGauge B.Name false ∈ out ∧
      collectionSuccessGauge false ∈ out ∧
      (∀ (scrape' : Scraper → String → ScrapeOutcome × Int) (out' : List Observation),
        scrape' A dsn = scrape A dsn →
        out'.Perm (collectorCollect scrape' (newHandlerCollectorArgs dsn enabled params)) →
        obsA.Subperm out' ∧ scrapeSuccessGauge A.Name true ∈ out') := by
  have hrep := collect_reports_success scrape (newHandlerCollectorArgs dsn enabled params) A
    obsA elapsedA hA hsA out hout
  refine ⟨hrep.1, hrep.2, ?_, ?_, ?_⟩
  · have hsub := collectScraper_sublist_collect scrape
      (newHandlerCollectorArgs dsn enabled params) B hB
    have hfail := collectScraper_failure scrape dsn B reason elapsedB hsB
    simp only [newHandlerCollectorArgs] at hsub hfail
    rw [hfail] at hsub
    exact hout.mem_iff.mpr (hsub.subset (by simp))
  · apply hout.mem_iff.mpr
    have hall : (filteredScrapers enabled params).all
        (fun s => (scrape s dsn).1.succeeded) = false := by
      rw [List.all_eq_false]
      exact ⟨B, hB, by simp [hsB, ScrapeOutcome.succeeded]⟩
    simp [collectorCollect, newHandlerCollectorArgs, hall]
  · intro scrape' out' hsame hout'
    exact collect_reports_success scrape' (newHandlerCollectorArgs dsn enabled params) A
      obsA elapsedA hA (hsame.trans hsA) out' hout'

/-- Witness for C8: enabled `[bad, ok]`, no selector, and the output read in reverse
order. -/
theorem collector_isolation_witness :
    List.Subperm [⟨"hana_up", [], 1⟩, ⟨"hana_threads", [("host", "db1")], 42⟩]
        (collectorCollect exampleScrape
          (newHandlerCollectorArgs "u:p@h:1" [badScraper, okScraper] [])).reverse ∧
      scrapeSuccessGauge "ok" true ∈
        (collectorCollect exampleScrape
          (newHandlerCollectorArgs "u:p@h:1" [badScraper, okScraper] [])).reverse ∧
      scrapeSuccessGauge "bad" false ∈
        (collectorCollect exampleScrape
          (newHandlerCollectorArgs "u:p@h:1" [badScraper, okScraper] [])).reverse ∧
      collectionSuccessGauge false ∈
        (collectorCollect exampleScrape
          (newHandlerCollectorArgs "u:p@h:1" [badScraper, okScraper] [])).reverse :=
  have h := collector_isolation exampleScrape "u:p@h:1" [badScraper, okScraper] []
    okScraper badScraper [⟨"hana_up", [], 1⟩, ⟨"hana_threads", [("host", "db1")], 42⟩] 3 7
    "connection refused" (by decide) (by decide) (by decide) (by decide)
    (collectorCollect exampleScrape
      (newHandlerCollectorArgs "u:p@h:1" [badScraper, okScraper] [])).reverse
    (List.reverse_perm _)
  ⟨h.1, h.2.1, h.2.2.1, h.2.2.2.1⟩

end HanaExporter
